import Mathlib

/-!
Verification development for the S3ToMilvus ingestion service (src/app.py).

The service is a single Flask endpoint `/process-file`.  Its handler
`process_file` validates the JSON body, fetches an object from S3, embeds its
text content, derives a Milvus collection name from the first two path
segments of the file key, ensures the collection exists
(`create_or_get_collection`), and inserts/flushes the one embedding.

The shallow embedding below models the handler as a pure function over an
environment describing the external collaborators (S3 fetch + UTF-8 decode,
the embedding model, and the Milvus insert/flush data path).  Each run returns
the HTTP outcome, the resulting collection-level Milvus state, and the list of
external calls issued, in program order.  Scalar entries of embedding vectors
are never inspected or computed with by the service, so the embedding is
parametric in the scalar type `α`.
-/

namespace S3ToMilvus

/-- Milvus field data types the service uses (pymilvus `DataType`). -/
inductive DataType where
  | INT64
  | FLOAT_VECTOR
  deriving DecidableEq

/-- pymilvus `FieldSchema`: field name, data type, primary-key flag, auto-id
flag, and the vector dimension when present. -/
structure FieldSchema where
  name : String
  dtype : DataType
  is_primary : Bool
  auto_id : Bool
  dim : Option Nat
  deriving DecidableEq

/-- pymilvus `CollectionSchema`: the field list plus a description string. -/
structure CollectionSchema where
  fields : List FieldSchema
  description : String
  deriving DecidableEq

/-- The schema built at app.py lines 58-62: an auto-id INT64 primary-key field
named "id" and a FLOAT_VECTOR field named "vector" of dimension 768. -/
def collection_schema : CollectionSchema :=
  ⟨[⟨"id", DataType.INT64, true, true, none⟩,
    ⟨"vector", DataType.FLOAT_VECTOR, false, false, some 768⟩],
   "Text embeddings collection"⟩

/-- Collection-level state of the external Milvus store: which named
collections exist, each with the schema it was created with.  Row contents are
owned by the `Env` oracle and are not needed for the collection-level claims. -/
structure MilvusState where
  collections : List (String × CollectionSchema)
  deriving DecidableEq

/-- pymilvus `utility.has_collection`: whether a collection with this name
exists in the store. -/
def has_collection (st : MilvusState) (name : String) : Bool :=
  st.collections.any (fun c => c.1 == name)

/-- Number of collections carrying the given name in the store. -/
def countName (st : MilvusState) (name : String) : Nat :=
  (st.collections.filter (fun c => c.1 == name)).length

/-- Python `str.split` with a one-character separator, on the character list:
splits at every occurrence of the separator, so adjacent separators and
leading/trailing separators yield empty segments, and the empty string yields
one empty segment — exactly CPython's `split('/')` behaviour. -/
def splitCharList (sep : Char) : List Char → List (List Char)
  | [] => [[]]
  | c :: rest =>
      if c = sep then [] :: splitCharList sep rest
      else
        match splitCharList sep rest with
        | [] => [[c]]
        | t :: ts => (c :: t) :: ts

/-- app.py line 91, `file_key.split('/')`, as a function on `String`. -/
def split_slash (s : String) : List String :=
  (splitCharList '/' s.data).map (fun l => ⟨l⟩)

/-- The value returned by `model.encode`: either a numpy ndarray or a plain
list (app.py line 88 distinguishes exactly these two container shapes). -/
inductive EncodeValue (α : Type) where
  | ndarray (v : List α)
  | plainList (v : List α)
  deriving DecidableEq

/-- The raw scalar sequence inside either container (`ndarray.tolist()`, or
the list itself). -/
def EncodeValue.tolist {α : Type} : EncodeValue α → List α
  | .ndarray v => v
  | .plainList v => v

/-- app.py line 88:
`vector = [vector.tolist()] if isinstance(vector, np.ndarray) else [vector]`. -/
def normalize_vector {α : Type} : EncodeValue α → List (List α)
  | .ndarray v => [v]
  | .plainList v => [v]

/-- One external call issued by the service, recorded in program order.
`insert` carries the exact value passed to `collection.insert`, which in the
source is `[vector]` with `vector` the normalized one-row batch. -/
inductive Effect (α : Type) where
  | s3_get_object (bucket key : String)
  | encode (text : String)
  | has_collection_check (name : String)
  | create_collection (name : String) (schema : CollectionSchema)
  | insert (name : String) (data : List (List (List α)))
  | flush (name : String)
  deriving DecidableEq

/-- Behaviour of the external collaborators during one request.
`get_object` models the S3 fetch together with the UTF-8 decode of the body
(they form one uncaught stage in the source, app.py lines 79-80);
`Except.error d` models a raised exception whose message is `d`. -/
structure Env (α : Type) where
  get_object : String → String → Except String String
  encode : String → Except String (EncodeValue α)
  insert : String → List (List (List α)) → Except String Unit
  flush : String → Except String Unit

/-- app.py lines 46-65, `create_or_get_collection`: derive the full collection
name, return the existing collection when present, otherwise create it with
the fixed schema.  Result: the handle (identified by the collection name), the
updated store state, and the Milvus calls issued. -/
def create_or_get_collection (α : Type) (parent_collection_name subfolder_name : String)
    (st : MilvusState) : String × MilvusState × List (Effect α) :=
  let full_collection_name := parent_collection_name ++ "_" ++ subfolder_name
  if has_collection st full_collection_name then
    (full_collection_name, st, [Effect.has_collection_check full_collection_name])
  else
    (full_collection_name,
     ⟨st.collections ++ [(full_collection_name, collection_schema)]⟩,
     [Effect.has_collection_check full_collection_name,
      Effect.create_collection full_collection_name collection_schema])

/-- The JSON request body as seen through `data.get`: an absent key yields
`none` (Python `None`). -/
structure RequestData where
  bucket_name : Option String
  file_key : Option String
  deriving DecidableEq

/-- Python truthiness of a `data.get` result: `None` and the empty string are
falsy, every other string is truthy. -/
def truthy : Option String → Bool
  | none => false
  | some s => s != ""

/-- Body of a `jsonify` response: an error object or a message object. -/
inductive Body where
  | error (msg : String)
  | message (msg : String)
  deriving DecidableEq

/-- Result of one request: a structured (status, body) response, or an
exception the handler does not catch (it propagates to the framework). -/
inductive Outcome where
  | response (status : Nat) (body : Body)
  | unhandled (detail : String)
  deriving DecidableEq

/-- app.py lines 67-110, the `/process-file` handler `process_file`:
validate field presence (truthiness), fetch from S3 and decode, embed,
normalize the embedding, validate the path has at least 3 segments, derive
parent folder and subfolder, resolve the collection, then insert and flush
inside the only try/except of the handler. -/
def process_file {α : Type} (env : Env α) (data : RequestData) (st : MilvusState) :
    Outcome × MilvusState × List (Effect α) :=
  if !(truthy data.bucket_name) || !(truthy data.file_key) then
    (Outcome.response 400 (Body.error "Missing bucket_name or file_key"), st, [])
  else
    let bucket_name := data.bucket_name.getD ""
    let file_key := data.file_key.getD ""
    match env.get_object bucket_name file_key with
    | Except.error detail =>
        (Outcome.unhandled detail, st, [Effect.s3_get_object bucket_name file_key])
    | Except.ok file_content =>
        match env.encode file_content with
        | Except.error detail =>
            (Outcome.unhandled detail, st,
             [Effect.s3_get_object bucket_name file_key, Effect.encode file_content])
        | Except.ok rawVector =>
            let vector := normalize_vector rawVector
            let path_parts := split_slash file_key
            if path_parts.length < 3 then
              (Outcome.response 400 (Body.error ("Invalid file path: " ++ file_key)), st,
               [Effect.s3_get_object bucket_name file_key, Effect.encode file_content])
            else
              let parent_folder := path_parts.getD 0 ""
              let subfolder := path_parts.getD 1 ""
              let res := create_or_get_collection α parent_folder subfolder st
              let effs := [Effect.s3_get_object bucket_name file_key,
                           Effect.encode file_content] ++ res.2.2
              match env.insert res.1 [vector] with
              | Except.error e =>
                  (Outcome.response 500 (Body.error ("Error inserting vector: " ++ e)),
                   res.2.1, effs ++ [Effect.insert res.1 [vector]])
              | Except.ok _ =>
                  match env.flush res.1 with
                  | Except.error e =>
                      (Outcome.response 500 (Body.error ("Error inserting vector: " ++ e)),
                       res.2.1,
                       effs ++ [Effect.insert res.1 [vector], Effect.flush res.1])
                  | Except.ok _ =>
                      (Outcome.response 200
                         (Body.message ("Successfully inserted vector for " ++ file_key)),
                       res.2.1,
                       effs ++ [Effect.insert res.1 [vector], Effect.flush res.1])

/-- The collection identity `process_file` derives from a file key: first path
segment, underscore, second path segment (app.py lines 91, 95-96 and 50). -/
def derived_identity (k : String) : String :=
  (split_slash k).getD 0 "" ++ "_" ++ (split_slash k).getD 1 ""

/-- An environment in which every external call succeeds: S3 returns
"hello world", the model returns a 3-entry ndarray, insert and flush succeed. -/
def okEnv : Env Nat :=
  ⟨fun _ _ => Except.ok "hello world",
   fun _ => Except.ok (EncodeValue.ndarray [1, 2, 3]),
   fun _ _ => Except.ok (),
   fun _ => Except.ok ()⟩

/-- Like `okEnv` but the insert call raises with message "boom". -/
def insertFailEnv : Env Nat :=
  ⟨fun _ _ => Except.ok "hello world",
   fun _ => Except.ok (EncodeValue.ndarray [1, 2, 3]),
   fun _ _ => Except.error "boom",
   fun _ => Except.ok ()⟩

/-- The empty Milvus store. -/
def st0 : MilvusState := ⟨[]⟩

/-- The handle returned by `create_or_get_collection` is always named
parent, underscore, subfolder (app.py line 50). -/
theorem create_or_get_fst (α : Type) (p s : String) (st : MilvusState) :
    (create_or_get_collection α p s st).1 = p ++ "_" ++ s := by
  simp only [create_or_get_collection]
  split <;> rfl

/-- Every Milvus call issued by `create_or_get_collection` is either the
existence check or the creation with the fixed schema, both on the derived
name. -/
theorem create_or_get_effects_names (α : Type) (p s : String) (st : MilvusState) :
    ∀ e ∈ (create_or_get_collection α p s st).2.2,
      e = Effect.has_collection_check (p ++ "_" ++ s) ∨
      e = Effect.create_collection (p ++ "_" ++ s) collection_schema := by
  simp only [create_or_get_collection]
  split <;> simp

/-- When the collection already exists, `create_or_get_collection` returns it
unchanged and only issues the existence check. -/
theorem create_or_get_of_has (α : Type) (p s : String) (st : MilvusState)
    (h : has_collection st (p ++ "_" ++ s) = true) :
    create_or_get_collection α p s st =
      (p ++ "_" ++ s, st, [Effect.has_collection_check (p ++ "_" ++ s)]) := by
  simp only [create_or_get_collection]
  rw [if_pos h]

/-- After any `create_or_get_collection` call, the derived collection exists. -/
theorem has_collection_after (α : Type) (p s : String) (st : MilvusState) :
    has_collection (create_or_get_collection α p s st).2.1 (p ++ "_" ++ s) = true := by
  simp only [create_or_get_collection]
  split
  · assumption
  · simp [has_collection]

/-- A name that is absent from the store occurs zero times in it. -/
theorem countName_zero_of_not_has {st : MilvusState} {n : String}
    (h : has_collection st n = false) : countName st n = 0 := by
  simp only [countName, List.length_eq_zero, List.filter_eq_nil_iff]
  simp only [has_collection, List.any_eq_false] at h
  exact h

/-- The existence check on the derived name is always part of the calls issued
by `create_or_get_collection`. -/
theorem create_or_get_check_mem (α : Type) (p s : String) (st : MilvusState) :
    Effect.has_collection_check (α := α) (p ++ "_" ++ s)
      ∈ (create_or_get_collection α p s st).2.2 := by
  simp only [create_or_get_collection]
  split <;> simp

/-- Python truthiness of a present non-empty string is true. -/
theorem truthy_some_ne {s : String} (h : s ≠ "") : truthy (some s) = true := by
  simp [truthy, h]

/-- Both fields present and non-empty makes the missing-field guard false. -/
theorem condition_false {b k : String} (hb : b ≠ "") (hk : k ≠ "") :
    (!(truthy (some b)) || !(truthy (some k))) = false := by
  simp [truthy_some_ne hb, truthy_some_ne hk]

/-- Case analysis of every external call a `process_file` run can issue: an S3
fetch, an encode, an existence check, a creation carrying the fixed schema, an
insert carrying a normalized one-row batch, or a flush. -/
theorem process_file_effect_cases {α : Type} (env : Env α) (data : RequestData)
    (st : MilvusState) :
    ∀ e ∈ (process_file env data st).2.2,
      (∃ bkt key, e = Effect.s3_get_object bkt key) ∨ (∃ t, e = Effect.encode t) ∨
      (∃ n, e = Effect.has_collection_check n) ∨
      (∃ n, e = Effect.create_collection n collection_schema) ∨
      (∃ n v, e = Effect.insert n [normalize_vector v]) ∨ (∃ n, e = Effect.flush n) := by
  intro e he
  simp only [process_file] at he
  split at he
  · simp at he
  · split at he
    · simp only [List.mem_singleton] at he
      subst he
      exact Or.inl ⟨_, _, rfl⟩
    · split at he
      · simp only [List.mem_cons, List.not_mem_nil, or_false] at he
        rcases he with he | he <;> subst he
        · exact Or.inl ⟨_, _, rfl⟩
        · exact Or.inr (Or.inl ⟨_, rfl⟩)
      · split at he
        · simp only [List.mem_cons, List.not_mem_nil, or_false] at he
          rcases he with he | he <;> subst he
          · exact Or.inl ⟨_, _, rfl⟩
          · exact Or.inr (Or.inl ⟨_, rfl⟩)
        · split at he
          · rcases List.mem_append.1 he with he | he
            · rcases List.mem_append.1 he with he | he
              · simp only [List.mem_cons, List.not_mem_nil, or_false] at he
                rcases he with he | he <;> subst he
                · exact Or.inl ⟨_, _, rfl⟩
                · exact Or.inr (Or.inl ⟨_, rfl⟩)
              · rcases create_or_get_effects_names _ _ _ _ e he with h | h <;> subst h
                · exact Or.inr (Or.inr (Or.inl ⟨_, rfl⟩))
                · exact Or.inr (Or.inr (Or.inr (Or.inl ⟨_, rfl⟩)))
            · simp only [List.mem_singleton] at he
              subst he
              exact Or.inr (Or.inr (Or.inr (Or.inr (Or.inl ⟨_, _, rfl⟩))))
          · split at he
            all_goals
              rcases List.mem_append.1 he with he | he
              · rcases List.mem_append.1 he with he | he
                · simp only [List.mem_cons, List.not_mem_nil, or_false] at he
                  rcases he with he | he <;> subst he
                  · exact Or.inl ⟨_, _, rfl⟩
                  · exact Or.inr (Or.inl ⟨_, rfl⟩)
                · rcases create_or_get_effects_names _ _ _ _ e he with h | h <;> subst h
                  · exact Or.inr (Or.inr (Or.inl ⟨_, rfl⟩))
                  · exact Or.inr (Or.inr (Or.inr (Or.inl ⟨_, rfl⟩)))
              · simp only [List.mem_cons, List.not_mem_nil, or_false] at he
                rcases he with he | he <;> subst he
                · exact Or.inr (Or.inr (Or.inr (Or.inr (Or.inl ⟨_, _, rfl⟩))))
                · exact Or.inr (Or.inr (Or.inr (Or.inr (Or.inr ⟨_, rfl⟩))))

/-- Characterization of a `process_file` run that passes both validations:
with both fields present and non-empty, a successful fetch and encode, and a
key of at least 3 segments, the run resolves the derived collection and then
inserts and flushes, mapping insert/flush failures to the 500 response. -/
theorem process_file_resolved {α : Type} (env : Env α) (st : MilvusState) (b k content : String)
    (v : EncodeValue α)
    (hb : b ≠ "") (hk : k ≠ "")
    (hget : env.get_object b k = Except.ok content)
    (henc : env.encode content = Except.ok v)
    (hseg : ¬ (split_slash k).length < 3) :
    process_file env ⟨some b, some k⟩ st =
      (let res := create_or_get_collection α ((split_slash k).getD 0 "")
         ((split_slash k).getD 1 "") st
       let effs := [Effect.s3_get_object b k, Effect.encode content] ++ res.2.2
       match env.insert (derived_identity k) [normalize_vector v] with
       | Except.error e =>
           (Outcome.response 500 (Body.error ("Error inserting vector: " ++ e)), res.2.1,
            effs ++ [Effect.insert (derived_identity k) [normalize_vector v]])
       | Except.ok _ =>
           match env.flush (derived_identity k) with
           | Except.error e =>
               (Outcome.response 500 (Body.error ("Error inserting vector: " ++ e)), res.2.1,
                effs ++ [Effect.insert (derived_identity k) [normalize_vector v],
                         Effect.flush (derived_identity k)])
           | Except.ok _ =>
               (Outcome.response 200 (Body.message ("Successfully inserted vector for " ++ k)),
                res.2.1,
                effs ++ [Effect.insert (derived_identity k) [normalize_vector v],
                         Effect.flush (derived_identity k)])) := by
  simp only [process_file, condition_false hb hk, Bool.false_eq_true, if_false,
    Option.getD_some, hget, henc]
  rw [if_neg hseg]
  simp only [create_or_get_fst, derived_identity]

/-- The call trace of a run that reaches resolution is the fetch, the encode,
the resolution calls, and then only insert/flush calls on the derived name. -/
theorem process_file_trace_resolved {α : Type} (env : Env α) (st : MilvusState)
    (b k content : String) (v : EncodeValue α)
    (hb : b ≠ "") (hk : k ≠ "")
    (hget : env.get_object b k = Except.ok content)
    (henc : env.encode content = Except.ok v)
    (hseg : ¬ (split_slash k).length < 3) :
    ∃ tail : List (Effect α),
      (process_file env ⟨some b, some k⟩ st).2.2 =
        ([Effect.s3_get_object b k, Effect.encode content]
          ++ (create_or_get_collection α ((split_slash k).getD 0 "")
               ((split_slash k).getD 1 "") st).2.2) ++ tail
      ∧ ∀ e ∈ tail,
          e = Effect.insert (derived_identity k) [normalize_vector v] ∨
          e = Effect.flush (derived_identity k) := by
  rw [process_file_resolved env st b k content v hb hk hget henc hseg]
  rcases hI : env.insert (derived_identity k) [normalize_vector v] with e | u
  · refine ⟨[Effect.insert (derived_identity k) [normalize_vector v]], ?_, ?_⟩
    · simp [hI]
    · intro x hx
      simp only [List.mem_singleton] at hx
      exact Or.inl hx
  · rcases hF : env.flush (derived_identity k) with e | u2
    · refine ⟨[Effect.insert (derived_identity k) [normalize_vector v],
        Effect.flush (derived_identity k)], ?_, ?_⟩
      · simp [hI, hF]
      · intro x hx
        simp only [List.mem_cons, List.not_mem_nil, or_false] at hx
        exact hx
    · refine ⟨[Effect.insert (derived_identity k) [normalize_vector v],
        Effect.flush (derived_identity k)], ?_, ?_⟩
      · simp [hI, hF]
      · intro x hx
        simp only [List.mem_cons, List.not_mem_nil, or_false] at hx
        exact hx

/-- C1 counterexample: the claim that a request whose file key has fewer than
3 segments produces the 400 "Invalid file path" response AND issues no
external calls is false at the concrete request bucket "docs", key
"onlyonesegment": the response is that 400, but the S3 fetch and the encode
are issued before the error (the trace is non-empty), so the conjunction
fails. -/
theorem C1_counterexample :
    ¬ ((process_file okEnv ⟨some "docs", some "onlyonesegment"⟩ st0).1 =
          Outcome.response 400 (Body.error "Invalid file path: onlyonesegment")
       ∧ (process_file okEnv ⟨some "docs", some "onlyonesegment"⟩ st0).2.2 = []) := by
  decide

/-- C1 (amended): for a request whose file key has fewer than 3 '/'-separated
segments, with both fields present and non-empty and the fetch and encode
succeeding, `process_file` returns 400 with the "Invalid file path" error, the
Milvus store is untouched, and the trace shows that exactly the S3 fetch and
the embedding computation were issued before the error — no vector-database
operation occurs, but the fetch and embedding do. -/
theorem C1_invalid_path_after_fetch {α : Type} (env : Env α) (st : MilvusState)
    (b k content : String) (v : EncodeValue α)
    (hb : b ≠ "") (hk : k ≠ "")
    (hget : env.get_object b k = Except.ok content)
    (henc : env.encode content = Except.ok v)
    (hseg : (split_slash k).length < 3) :
    process_file env ⟨some b, some k⟩ st =
      (Outcome.response 400 (Body.error ("Invalid file path: " ++ k)), st,
       [Effect.s3_get_object b k, Effect.encode content]) := by
  simp only [process_file, condition_false hb hk, Bool.false_eq_true, if_false,
    Option.getD_some, hget, henc]
  rw [if_pos hseg]

/-- C1 witness: the amended claim evaluated on the concrete Scenario B
request. -/
theorem C1_witness :
    process_file okEnv ⟨some "docs", some "onlyonesegment"⟩ st0 =
      (Outcome.response 400 (Body.error ("Invalid file path: " ++ "onlyonesegment")), st0,
       [Effect.s3_get_object "docs" "onlyonesegment", Effect.encode "hello world"]) :=
  C1_invalid_path_after_fetch okEnv st0 "docs" "onlyonesegment" "hello world"
    (EncodeValue.ndarray [1, 2, 3]) (by decide) (by decide) rfl rfl (by decide)

/-- C2: every value passed to the vector-database insert operation in any run
of `process_file` is the normalized batch of one embedding: it equals the
one-row batch `normalize_vector v` wrapped as the single element of the insert
argument, where `normalize_vector v` holds exactly one vector (the embedding's
scalar list) regardless of whether the encoder returned an ndarray or a plain
list. -/
theorem C2_insert_single_row {α : Type} (env : Env α) (data : RequestData)
    (st : MilvusState) (name : String) (d : List (List (List α)))
    (h : Effect.insert name d ∈ (process_file env data st).2.2) :
    ∃ v : EncodeValue α, d = [normalize_vector v]
      ∧ normalize_vector v = [EncodeValue.tolist v]
      ∧ d.length = 1 ∧ (normalize_vector v).length = 1 := by
  rcases process_file_effect_cases env data st _ h with
    ⟨x, y, hc⟩ | ⟨x, hc⟩ | ⟨x, hc⟩ | ⟨x, hc⟩ | ⟨n, v, hc⟩ | ⟨x, hc⟩
  · exact absurd hc (by simp)
  · exact absurd hc (by simp)
  · exact absurd hc (by simp)
  · exact absurd hc (by simp)
  · simp only [Effect.insert.injEq] at hc
    refine ⟨v, hc.2, by cases v <;> rfl, ?_, by cases v <;> rfl⟩
    rw [hc.2]
    rfl
  · exact absurd hc (by simp)

/-- C2 witness: the insert issued for the request with key "a/b/c.txt" under
`okEnv` carries the payload of exactly one vector. -/
theorem C2_witness :
    ∃ v : EncodeValue Nat, ([[[1, 2, 3]]] : List (List (List Nat))) = [normalize_vector v]
      ∧ normalize_vector v = [EncodeValue.tolist v]
      ∧ ([[[1, 2, 3]]] : List (List (List Nat))).length = 1
      ∧ (normalize_vector v).length = 1 :=
  C2_insert_single_row okEnv ⟨some "docs", some "a/b/c.txt"⟩ st0 ("a" ++ "_" ++ "b")
    [[[1, 2, 3]]] (by decide)

/-- C3: a request missing `bucket_name` or `file_key` gets the 400
"Missing bucket_name or file_key" response, the store is untouched, and the
empty trace shows that no external call is issued. -/
theorem C3_missing_fields {α : Type} (env : Env α) (st : MilvusState) (data : RequestData)
    (h : data.bucket_name = none ∨ data.file_key = none) :
    process_file env data st =
      (Outcome.response 400 (Body.error "Missing bucket_name or file_key"), st, []) := by
  unfold process_file
  rcases h with h | h <;> rw [h] <;> simp [truthy]

/-- C3 witness: Scenario C, a request with `bucket_name` omitted. -/
theorem C3_witness :
    process_file okEnv ⟨none, some "a/b/c"⟩ st0 =
      (Outcome.response 400 (Body.error "Missing bucket_name or file_key"), st0, []) :=
  C3_missing_fields okEnv st0 ⟨none, some "a/b/c"⟩ (Or.inl rfl)

/-- C4: in every run whose file key has at least 3 '/'-separated segments that
reaches collection resolution, the resolved collection identity is exactly the
first segment, an underscore, and the second segment (`derived_identity`): the
existence check on that identity is issued, and every existence check and
every creation in the trace carries exactly that identity.  `derived_identity`
is a pure function of the file key alone, so repeated calls with the same key
resolve to the same identity (the theorem holds for every environment and
store). -/
theorem C4_collection_identity {α : Type} (env : Env α) (st : MilvusState)
    (b k content : String) (v : EncodeValue α)
    (hb : b ≠ "") (hk : k ≠ "")
    (hget : env.get_object b k = Except.ok content)
    (henc : env.encode content = Except.ok v)
    (hseg : 3 ≤ (split_slash k).length) :
    Effect.has_collection_check (α := α) (derived_identity k)
      ∈ (process_file env ⟨some b, some k⟩ st).2.2
    ∧ (∀ n, Effect.has_collection_check (α := α) n
          ∈ (process_file env ⟨some b, some k⟩ st).2.2 → n = derived_identity k)
    ∧ (∀ n sch, Effect.create_collection (α := α) n sch
          ∈ (process_file env ⟨some b, some k⟩ st).2.2 → n = derived_identity k) := by
  rcases process_file_trace_resolved env st b k content v hb hk hget henc (by omega)
    with ⟨tail, htr, htail⟩
  rw [htr]
  refine ⟨?_, ?_, ?_⟩
  · refine List.mem_append_left _ (List.mem_append_right _ ?_)
    have := create_or_get_check_mem α ((split_slash k).getD 0 "") ((split_slash k).getD 1 "") st
    simpa [derived_identity] using this
  · intro n hn
    rcases List.mem_append.1 hn with hn | hn
    · rcases List.mem_append.1 hn with hn | hn
      · simp at hn
      · rcases create_or_get_effects_names _ _ _ _ _ hn with h | h
        · simp only [Effect.has_collection_check.injEq] at h
          simp only [derived_identity]
          exact h
        · exact absurd h (by simp)
    · rcases htail _ hn with h | h <;> exact absurd h (by simp)
  · intro n sch hn
    rcases List.mem_append.1 hn with hn | hn
    · rcases List.mem_append.1 hn with hn | hn
      · simp at hn
      · rcases create_or_get_effects_names _ _ _ _ _ hn with h | h
        · exact absurd h (by simp)
        · simp only [Effect.create_collection.injEq] at h
          simp only [derived_identity]
          exact h.1
    · rcases htail _ hn with h | h <;> exact absurd h (by simp)

/-- C4 witness: for the Scenario A key the derived identity is checked in the
trace. -/
theorem C4_witness :
    Effect.has_collection_check (α := Nat) (derived_identity "teamA/notes/readme.txt")
      ∈ (process_file okEnv ⟨some "docs", some "teamA/notes/readme.txt"⟩ st0).2.2 :=
  (C4_collection_identity okEnv st0 "docs" "teamA/notes/readme.txt" "hello world"
    (EncodeValue.ndarray [1, 2, 3]) (by decide) (by decide) rfl rfl (by decide)).1

/-- C5: collection-level idempotence of `create_or_get_collection` under
sequential calls.  If the derived collection already exists, the call issues
only the existence check, changes nothing, and returns the handle to the
existing collection.  Consequently a second sequential call for the same
parent/subfolder pair issues no creation, and if the store started with at
most one collection of that name, it still has at most one after the two
calls — a second collection for that prefix is never created. -/
theorem C5_idempotent (α : Type) (parent subfolder : String) (st : MilvusState)
    (h1 : countName st (parent ++ "_" ++ subfolder) ≤ 1) :
    (has_collection st (parent ++ "_" ++ subfolder) = true →
       create_or_get_collection α parent subfolder st =
         (parent ++ "_" ++ subfolder, st,
          [Effect.has_collection_check (parent ++ "_" ++ subfolder)]))
    ∧ (∀ sch, Effect.create_collection (parent ++ "_" ++ subfolder) sch ∉
         (create_or_get_collection α parent subfolder
            (create_or_get_collection α parent subfolder st).2.1).2.2)
    ∧ countName
        (create_or_get_collection α parent subfolder
           (create_or_get_collection α parent subfolder st).2.1).2.1
        (parent ++ "_" ++ subfolder) ≤ 1 := by
  have hafter := has_collection_after α parent subfolder st
  have heq2 := create_or_get_of_has α parent subfolder
    (create_or_get_collection α parent subfolder st).2.1 hafter
  refine ⟨fun hhas => create_or_get_of_has α parent subfolder st hhas, ?_, ?_⟩
  · intro sch
    rw [heq2]
    simp
  · rw [heq2]
    by_cases hhas : has_collection st (parent ++ "_" ++ subfolder) = true
    · rw [create_or_get_of_has α parent subfolder st hhas]
      exact h1
    · have h0 := countName_zero_of_not_has (Bool.eq_false_iff.mpr hhas)
      simp only [create_or_get_collection]
      rw [if_neg hhas]
      simp only [countName, List.filter_append, List.length_append]
      simp only [countName] at h0
      rw [h0]
      simp

/-- C5 witness: two sequential resolutions of "teamA"/"notes" starting from
the empty store leave at most one collection named "teamA_notes". -/
theorem C5_witness :
    countName
        (create_or_get_collection Nat "teamA" "notes"
           (create_or_get_collection Nat "teamA" "notes" st0).2.1).2.1
        ("teamA" ++ "_" ++ "notes") ≤ 1 :=
  (C5_idempotent Nat "teamA" "notes" st0 (by decide)).2.2

/-- C6: every collection creation issued by any `process_file` run carries
exactly the fixed schema: an auto-id 64-bit integer primary-key field and one
768-dimensional float-vector field.  No other schema shape is ever used. -/
theorem C6_schema_unique {α : Type} (env : Env α) (data : RequestData)
    (st : MilvusState) (n : String) (sch : CollectionSchema)
    (h : Effect.create_collection (α := α) n sch ∈ (process_file env data st).2.2) :
    sch = collection_schema ∧
    sch.fields = [⟨"id", DataType.INT64, true, true, none⟩,
                  ⟨"vector", DataType.FLOAT_VECTOR, false, false, some 768⟩] := by
  rcases process_file_effect_cases env data st _ h with
    ⟨x, y, hc⟩ | ⟨x, hc⟩ | ⟨x, hc⟩ | ⟨x, hc⟩ | ⟨m, v, hc⟩ | ⟨x, hc⟩
  · exact absurd hc (by simp)
  · exact absurd hc (by simp)
  · exact absurd hc (by simp)
  · simp only [Effect.create_collection.injEq] at hc
    exact ⟨hc.2, by rw [hc.2]; rfl⟩
  · exact absurd hc (by simp)
  · exact absurd hc (by simp)

/-- C6 witness: the creation issued for key "a/b/c.txt" from the empty store
carries the fixed schema. -/
theorem C6_witness :
    collection_schema = collection_schema ∧
    collection_schema.fields = [⟨"id", DataType.INT64, true, true, none⟩,
                  ⟨"vector", DataType.FLOAT_VECTOR, false, false, some 768⟩] :=
  C6_schema_unique okEnv ⟨some "docs", some "a/b/c.txt"⟩ st0 ("a" ++ "_" ++ "b")
    collection_schema (by decide)

/-- C7: a run that reaches the insert/flush stage and succeeds returns the 200
response whose message is exactly "Successfully inserted vector for "
followed by the submitted file key — in particular the message contains the
exact file key as a suffix. -/
theorem C7_success_message {α : Type} (env : Env α) (st : MilvusState)
    (b k content : String) (v : EncodeValue α)
    (hb : b ≠ "") (hk : k ≠ "")
    (hget : env.get_object b k = Except.ok content)
    (henc : env.encode content = Except.ok v)
    (hseg : 3 ≤ (split_slash k).length)
    (hins : env.insert (derived_identity k) [normalize_vector v] = Except.ok ())
    (hfl : env.flush (derived_identity k) = Except.ok ()) :
    (process_file env ⟨some b, some k⟩ st).1 =
      Outcome.response 200 (Body.message ("Successfully inserted vector for " ++ k))
    ∧ ∃ pre, "Successfully inserted vector for " ++ k = pre ++ k := by
  rw [process_file_resolved env st b k content v hb hk hget henc (by omega)]
  refine ⟨?_, "Successfully inserted vector for ", rfl⟩
  simp only [hins, hfl]

/-- C7 witness: Scenario A evaluated concretely. -/
theorem C7_witness :
    (process_file okEnv ⟨some "docs", some "teamA/notes/readme.txt"⟩ st0).1 =
      Outcome.response 200
        (Body.message ("Successfully inserted vector for " ++ "teamA/notes/readme.txt"))
    ∧ ∃ pre, "Successfully inserted vector for " ++ "teamA/notes/readme.txt"
        = pre ++ "teamA/notes/readme.txt" :=
  C7_success_message okEnv st0 "docs" "teamA/notes/readme.txt" "hello world"
    (EncodeValue.ndarray [1, 2, 3]) (by decide) (by decide) rfl rfl (by decide) rfl rfl

/-- C8: failure mapping of `process_file` for both fields present and
non-empty.  A fetch/decode failure and an embedding failure each propagate as
an uncaught exception (no structured response); a raised insert, or a raised
flush after a successful insert, is caught and mapped to the 500 response
whose error is "Error inserting vector: " followed by the failure detail.
Only the insert/flush stage has this explicit handling. -/
theorem C8_insert_flush_errors {α : Type} (env : Env α) (st : MilvusState) (b k : String)
    (hb : b ≠ "") (hk : k ≠ "") :
    (∀ d, env.get_object b k = Except.error d →
       (process_file env ⟨some b, some k⟩ st).1 = Outcome.unhandled d)
    ∧ (∀ content d, env.get_object b k = Except.ok content →
        env.encode content = Except.error d →
        (process_file env ⟨some b, some k⟩ st).1 = Outcome.unhandled d)
    ∧ (∀ content v e, env.get_object b k = Except.ok content →
        env.encode content = Except.ok v → ¬ (split_slash k).length < 3 →
        env.insert (derived_identity k) [normalize_vector v] = Except.error e →
        (process_file env ⟨some b, some k⟩ st).1 =
          Outcome.response 500 (Body.error ("Error inserting vector: " ++ e)))
    ∧ (∀ content v e, env.get_object b k = Except.ok content →
        env.encode content = Except.ok v → ¬ (split_slash k).length < 3 →
        env.insert (derived_identity k) [normalize_vector v] = Except.ok () →
        env.flush (derived_identity k) = Except.error e →
        (process_file env ⟨some b, some k⟩ st).1 =
          Outcome.response 500 (Body.error ("Error inserting vector: " ++ e))) := by
  refine ⟨?_, ?_, ?_, ?_⟩
  · intro d hget
    simp only [process_file, condition_false hb hk, Bool.false_eq_true, if_false,
      Option.getD_some, hget]
  · intro content d hget henc
    simp only [process_file, condition_false hb hk, Bool.false_eq_true, if_false,
      Option.getD_some, hget, henc]
  · intro content v e hget henc hseg hins
    rw [process_file_resolved env st b k content v hb hk hget henc hseg]
    simp only [hins]
  · intro content v e hget henc hseg hins hfl
    rw [process_file_resolved env st b k content v hb hk hget henc hseg]
    simp only [hins, hfl]

/-- C8 witness: Scenario D, an insert that raises "boom" yields the 500
response with the detail in the error message. -/
theorem C8_witness :
    (process_file insertFailEnv ⟨some "docs", some "a/b/c.txt"⟩ st0).1 =
      Outcome.response 500 (Body.error ("Error inserting vector: " ++ "boom")) :=
  (C8_insert_flush_errors insertFailEnv st0 "docs" "a/b/c.txt"
    (by decide) (by decide)).2.2.1 "hello world" (EncodeValue.ndarray [1, 2, 3]) "boom"
    rfl rfl (by decide) rfl

/-- C9: a field that is present but equal to the empty string is treated
exactly like a missing field, because the presence check uses truthiness: the
response is the 400 "Missing bucket_name or file_key" error with no external
calls. -/
theorem C9_empty_string_missing {α : Type} (env : Env α) (st : MilvusState)
    (data : RequestData)
    (h : data.bucket_name = some "" ∨ data.file_key = some "") :
    process_file env data st =
      (Outcome.response 400 (Body.error "Missing bucket_name or file_key"), st, []) := by
  unfold process_file
  rcases h with h | h <;> rw [h] <;> simp [truthy]

/-- C9 witness: an empty `bucket_name` is rejected as missing. -/
theorem C9_witness :
    process_file okEnv ⟨some "", some "a/b/c"⟩ st0 =
      (Outcome.response 400 (Body.error "Missing bucket_name or file_key"), st0, []) :=
  C9_empty_string_missing okEnv st0 ⟨some "", some "a/b/c"⟩ (Or.inl rfl)

/-- C10: the segment-count validation does not require segments to be
non-empty.  Every key splitting into at least 3 parts passes the validation
(the "Invalid file path" response is never produced for it), and in
particular the keys "a//file" and "/b/file" resolve collections whose
identities are formed from the possibly-empty first two segments, namely
"a_" and "_b". -/
theorem C10_empty_segments {α : Type} (env : Env α) (st : MilvusState)
    (b content : String) (v : EncodeValue α) (hb : b ≠ "")
    (hget : ∀ key, env.get_object b key = Except.ok content)
    (henc : env.encode content = Except.ok v) :
    (∀ k, k ≠ "" → 3 ≤ (split_slash k).length →
       (process_file env ⟨some b, some k⟩ st).1 ≠
         Outcome.response 400 (Body.error ("Invalid file path: " ++ k)))
    ∧ Effect.has_collection_check (α := α) "a_"
        ∈ (process_file env ⟨some b, some "a//file"⟩ st).2.2
    ∧ Effect.has_collection_check (α := α) "_b"
        ∈ (process_file env ⟨some b, some "/b/file"⟩ st).2.2 := by
  refine ⟨?_, ?_, ?_⟩
  · intro k hk hseg
    rw [process_file_resolved env st b k content v hb hk (hget k) henc (by omega)]
    rcases hI : env.insert (derived_identity k) [normalize_vector v] with e | u
    · simp [hI]
    · rcases hF : env.flush (derived_identity k) with e | u2
      · simp [hI, hF]
      · simp [hI, hF]
  · rcases process_file_trace_resolved env st b "a//file" content v hb (by decide)
      (hget _) henc (by decide) with ⟨tail, htr, htail⟩
    rw [htr]
    refine List.mem_append_left _ (List.mem_append_right _ ?_)
    have := create_or_get_check_mem α ((split_slash "a//file").getD 0 "")
      ((split_slash "a//file").getD 1 "") st
    have harg : ((split_slash "a//file").getD 0 "" ++ "_" ++ (split_slash "a//file").getD 1 "")
        = "a_" := by decide
    rw [harg] at this
    exact this
  · rcases process_file_trace_resolved env st b "/b/file" content v hb (by decide)
      (hget _) henc (by decide) with ⟨tail, htr, htail⟩
    rw [htr]
    refine List.mem_append_left _ (List.mem_append_right _ ?_)
    have := create_or_get_check_mem α ((split_slash "/b/file").getD 0 "")
      ((split_slash "/b/file").getD 1 "") st
    have harg : ((split_slash "/b/file").getD 0 "" ++ "_" ++ (split_slash "/b/file").getD 1 "")
        = "_b" := by decide
    rw [harg] at this
    exact this

/-- C10 witness: under `okEnv` the key "a//file" passes validation and checks
the collection "a_". -/
theorem C10_witness :
    Effect.has_collection_check (α := Nat) "a_"
      ∈ (process_file okEnv ⟨some "docs", some "a//file"⟩ st0).2.2 :=
  (C10_empty_segments okEnv st0 "docs" "hello world" (EncodeValue.ndarray [1, 2, 3])
    (by decide) (fun key => rfl) rfl).2.1

end S3ToMilvus
